import Mathlib

/-!
Verification of the csvfs repository (src/csvfs/main.py, src/csvfs/backend.py)
against its natural-language specification.

The shallow embedding below models:
  * Python strings as `Str := List Char` (one entry per code point, matching
    Python's `len`/slicing, which are code-point based);
  * `pandas.DataFrame` values as `Df` (a header row plus string-rendered cells;
    cells are assumed not to require CSV quoting, as in all inputs exercised
    here), with `dfToCsv` modelling `df.to_csv(index=False)` and
    `dfToCsvIndexed` modelling `df.to_csv()` (default integer range index);
  * Python `json.dumps(x, indent=2)` as `jsonDumps` over a `Json` tree
    (numbers restricted to integers; the statistics documents of the claims
    under study never force float rendering);
  * the SQLite-backed query interface `CSVFilesystemBackend.query` as
    `backendQuery` over an oracle `dbExec` giving the behaviour of
    `pandas.read_sql_query` on each SQL text;
  * the FUSE operation set of class `CSVFS` as pure functions over an
    explicit state `FS`.
All definitions are translated from the source files; where a pandas or
stdlib primitive is involved, the definition models that primitive's
behaviour on the value shapes that actually occur.
-/

/-- Python strings, one entry per code point. -/
abbrev Str := List Char

/-- Code-point list of a Lean string literal (used to write model constants). -/
def cl (s : String) : Str := s.data

/-- Number of bytes of a scalar value in UTF-8. -/
def charUtf8Size (c : Char) : Nat :=
  if c.val < 0x80 then 1
  else if c.val < 0x800 then 2
  else if c.val < 0x10000 then 3
  else 4

/-- Byte length of the UTF-8 encoding of a string (`len(s.encode('utf-8'))`). -/
def utf8Len (s : Str) : Nat := (s.map charUtf8Size).sum

/-- Whitespace characters stripped by Python `str.strip()` (ASCII range;
filenames and SQL text in this program contain no exotic Unicode spaces). -/
def isPyWs (c : Char) : Bool :=
  c = ' ' || c = '\t' || c = '\n' || c = '\x0d' || c = '\x0b' || c = '\x0c'

/-- Python `s.strip()`. -/
def pyStrip (s : Str) : Str :=
  ((s.dropWhile isPyWs).reverse.dropWhile isPyWs).reverse

/-- Python `s.endswith(';')`. -/
def endsWithSemi (s : Str) : Bool :=
  match s.getLast? with
  | some c => c = ';'
  | none => false

/-- Python `s.split(';')`: splits at every occurrence, keeps empty pieces. -/
def splitOnSemi : Str → List Str
  | [] => [[]]
  | c :: rest =>
    let r := splitOnSemi rest
    if c = ';' then [] :: r
    else match r with
      | [] => [[c]]
      | h :: t => (c :: h) :: t

/-- `pathlib.Path(p).name`: the component after the last slash. -/
def basename (p : Str) : Str :=
  (p.reverse.takeWhile (fun c => c ≠ '/')).reverse

/-- `pathlib.Path(p).stem`: the name with its last extension removed
(pathlib drops the suffix only when the last dot is neither the first nor
the final character of the name). -/
def stemOf (p : Str) : Str :=
  let b := basename p
  let r := b.reverse
  let s := r.takeWhile (fun c => c ≠ '.')
  match r.dropWhile (fun c => c ≠ '.') with
  | [] => b
  | _ :: pre => if s.isEmpty || pre.isEmpty then b else pre.reverse

/-- Decimal rendering of a natural number (`str(n)` for `n ≥ 0`). -/
def natStr (n : Nat) : Str := Nat.toDigits 10 n

/-- Decimal value of a digit string (Python `int(s)` on a digit-only string). -/
def natFromDigits (s : Str) : Nat :=
  s.foldl (fun acc c => acc * 10 + (c.toNat - '0'.toNat)) 0

/-- Python `str(i)` for an `int` that may be negative. -/
def intStr (i : Int) : Str :=
  if i < 0 then '-' :: natStr i.natAbs else natStr i.toNat

/-- Association-list lookup, modelling Python `dict` reads. -/
def lookupS {α : Type} : List (Str × α) → Str → Option α
  | [], _ => none
  | (k, v) :: t, key => if k = key then some v else lookupS t key

/-- Association-list update, modelling Python `dict` assignment
(replaces the value in place, or appends a new binding). -/
def insertS {α : Type} : List (Str × α) → Str → α → List (Str × α)
  | [], key, v => [(key, v)]
  | (k, w) :: t, key, v => if k = key then (k, v) :: t else (k, w) :: insertS t key v

/-- Association-list deletion, modelling Python `del d[k]`. -/
def removeS {α : Type} : List (Str × α) → Str → List (Str × α)
  | [], _ => []
  | (k, w) :: t, key => if k = key then t else (k, w) :: removeS t key

/-- A tabular query result: column names plus string-rendered cell values
(modelling a `pandas.DataFrame` as serialized by `to_csv`). -/
structure Df where
  header : List Str
  rows : List (List Str)
deriving DecidableEq

/-- Comma-join of one CSV record. -/
def csvJoin (cells : List Str) : Str := List.intercalate (cl ",") cells

/-- `df.to_csv(index=False)`: header line then one line per row, each
terminated by a newline. -/
def dfToCsv (d : Df) : Str :=
  csvJoin d.header ++ cl "\n" ++
    (d.rows.map (fun r => csvJoin r ++ cl "\n")).flatten

/-- `df.to_csv()` (default `index=True`): the range index contributes an
empty leading header cell and a leading decimal row label on every row. -/
def dfToCsvIndexed (d : Df) : Str :=
  ',' :: csvJoin d.header ++ cl "\n" ++
    (d.rows.enum.map (fun ir => natStr ir.1 ++ ',' :: csvJoin ir.2 ++ cl "\n")).flatten

/-- JSON documents (numbers restricted to integers; the claims under
study never depend on float rendering). -/
inductive Json where
  | null : Json
  | bool (b : Bool) : Json
  | num (n : Int) : Json
  | str (s : Str) : Json
  | arr (xs : List Json) : Json
  | obj (fs : List (Str × Json)) : Json

/-- Lower-case hex digits of a value, padded to width 4 (`\uXXXX` body). -/
def hex4 (n : Nat) : Str :=
  let dig := fun (k : Nat) => Nat.digitChar (n / 16 ^ k % 16)
  [dig 3, dig 2, dig 1, dig 0]

/-- One character of a JSON string under `json.dumps` defaults
(`ensure_ascii=True`): short escapes for the usual control characters,
`\uXXXX` (with surrogate pairs above U+FFFF) for everything outside
the printable ASCII range. -/
def jsonEscChar (c : Char) : Str :=
  if c = '"' then cl "\\\""
  else if c = '\\' then cl "\\\\"
  else if c = '\n' then cl "\\n"
  else if c = '\t' then cl "\\t"
  else if c = '\x0d' then cl "\\r"
  else if c = '\x08' then cl "\\b"
  else if c = '\x0c' then cl "\\f"
  else if 0x20 ≤ c.toNat && c.toNat ≤ 0x7e then [c]
  else if c.toNat < 0x10000 then '\\' :: 'u' :: hex4 c.toNat
  else
    let v := c.toNat - 0x10000
    ('\\' :: 'u' :: hex4 (0xd800 + v / 0x400)) ++ ('\\' :: 'u' :: hex4 (0xdc00 + v % 0x400))

/-- A JSON string literal as rendered by `json.dumps`. -/
def jsonQuote (s : Str) : Str := '"' :: (s.map jsonEscChar).flatten ++ ['"']

/-- Newline plus `n` spaces of indentation. -/
def jsonNl (n : Nat) : Str := '\n' :: List.replicate n ' '

mutual

/-- `json.dumps(x, indent=2)` at indentation level `lv * 2`:
empty containers render inline, non-empty ones one element per line,
key separator `": "`, item separator `","` followed by the indented
newline. -/
def jsonDumpsAt (lv : Nat) : Json → Str
  | .null => cl "null"
  | .bool true => cl "true"
  | .bool false => cl "false"
  | .num n => intStr n
  | .str s => jsonQuote s
  | .arr [] => cl "[]"
  | .arr (x :: xs) =>
    '[' :: jsonNl (2 * (lv + 1)) ++
      List.intercalate (',' :: jsonNl (2 * (lv + 1))) (jsonDumpsArr (lv + 1) (x :: xs)) ++
      jsonNl (2 * lv) ++ [']']
  | .obj [] => cl "\x7b\x7d"
  | .obj (f :: fs) =>
    '\x7b' :: jsonNl (2 * (lv + 1)) ++
      List.intercalate (',' :: jsonNl (2 * (lv + 1))) (jsonDumpsObj (lv + 1) (f :: fs)) ++
      jsonNl (2 * lv) ++ ['\x7d']

/-- Renderings of the elements of a JSON array. -/
def jsonDumpsArr (lv : Nat) : List Json → List Str
  | [] => []
  | x :: xs => jsonDumpsAt lv x :: jsonDumpsArr lv xs

/-- Renderings of the fields of a JSON object. -/
def jsonDumpsObj (lv : Nat) : List (Str × Json) → List Str
  | [] => []
  | (k, v) :: fs => (jsonQuote k ++ cl ": " ++ jsonDumpsAt lv v) :: jsonDumpsObj lv fs

end

/-- `json.dumps(x, indent=2)`. -/
def jsonDumps (j : Json) : Str := jsonDumpsAt 0 j

/-- Attempt to match `\d+-\d+` as a prefix of `l` (the text after a
candidate dot), returning the two greedy digit groups. -/
def parseAfterDot (l : Str) : Option (Str × Str) :=
  let a := l.takeWhile Char.isDigit
  match a, l.dropWhile Char.isDigit with
  | [], _ => none
  | _ :: _, '-' :: r2 =>
    let b := r2.takeWhile Char.isDigit
    if b.isEmpty then none else some (a, b)
  | _, _ => none

/-- Backtracking search of `re.match(r'(.+)\.(\d+)-(\d+)', name)`:
the greedy `.+` prefers the longest prefix, i.e. the latest dot whose right
context matches `\d+-\d+`; `accRev` holds the (reversed) characters consumed
by `.+` so far, which must be non-empty at a match. -/
def pagSearch : Str → Str → Option (Str × Str × Str)
  | _, [] => none
  | accRev, '.' :: rest =>
    match pagSearch ('.' :: accRev) rest with
    | some r => some r
    | none =>
      if accRev.isEmpty then none
      else match parseAfterDot rest with
        | some (a, b) => some (accRev.reverse, a, b)
        | none => none
  | accRev, c :: rest => pagSearch (c :: accRev) rest

/-- `CSVFS._parse_pagination`: regex groups of the basename, with the two
digit groups converted by `int(...)`. -/
def parsePagination (p : Str) : Option (Str × Nat × Nat) :=
  match pagSearch [] (basename p) with
  | some (t, a, b) => some (t, natFromDigits a, natFromDigits b)
  | none => none

/-- `CSVFS._is_paginated_file`: the same regex, match success only. -/
def isPaginatedFile (p : Str) : Bool := (parsePagination p).isSome

/-- The closed set of object kinds produced by `CSVFS._get_file_type`. -/
inductive FileKind where
  | directory
  | stats_file
  | csv_file
  | paginated_csv_file
  | paginated_directory
  | paginated_leaf_directory
  | query_file
  | result_file
  | unknown
deriving DecidableEq

/-- The fixed virtual directory set installed by `CSVFS.__init__` and never
mutated afterwards. -/
def virtualDirs : List Str :=
  [cl "/", cl "/data", cl "/sql", cl "/sql/queries", cl "/sql/results",
   cl "/stats", cl "/schemas"]

/-- `s.startswith(pre)`. -/
def startsWithS : Str → Str → Bool
  | [], _ => true
  | _ :: _, [] => false
  | a :: as_, b :: bs => a == b && startsWithS as_ bs

/-- `s.endswith(suf)`. -/
def endsWithS (suf p : Str) : Bool := startsWithS suf.reverse p.reverse

/-- `CSVFS._get_file_type`: the Namespace Resolver, an if/elif cascade whose
first matching rule wins. -/
def getFileType (p : Str) : FileKind :=
  if p ∈ virtualDirs then .directory
  else if startsWithS (cl "/stats/") p && endsWithS (cl ".json") p then .stats_file
  else if startsWithS (cl "/data/") p && endsWithS (cl ".csv") p then
    if isPaginatedFile p then .paginated_csv_file else .csv_file
  else if startsWithS (cl "/data/paged_") p then
    if isPaginatedFile p then .paginated_leaf_directory else .paginated_directory
  else if startsWithS (cl "/sql/queries/") p && endsWithS (cl ".sql") p then .query_file
  else if startsWithS (cl "/sql/results/") p && endsWithS (cl ".csv") p then .result_file
  else .unknown

/-- POSIX error codes raised by the operations under study. -/
inductive Errno where
  | ENOENT
  | EACCES
deriving DecidableEq

/-- The slice of `getattr` output the claims are about: whether the entry is
a directory, and `st_size`. -/
structure Attr where
  isDir : Bool
  size : Nat
deriving DecidableEq

deriving instance DecidableEq for Except

/-- `CSVFilesystemBackend.query`: run the SQL against the store
(`pd.read_sql_query`, represented by the oracle `exec`), return the table on
success and `None` on any exception. -/
def backendQuery (exec : Str → Except Str Df) (sql : Str) : Option Df :=
  match exec sql with
  | .ok df => some df
  | .error _ => none

/-- Mutable state of a mounted `CSVFS` instance: the virtual-file map, the
query-result map, the statistics cache, plus the behaviour of the two
collaborators it consults (`dbExec` for `pandas.read_sql_query` against the
SQLite store, and `computeStats` for the statistics computation of
`_update_stats` on a not-yet-cached name, whose internals no claim under
study depends on). -/
structure FS where
  virtualFiles : List (Str × Str)
  queryResults : List (Str × Option Df)
  stats : List (Str × Json)
  dbExec : Str → Except Str Df
  computeStats : Str → Json

/-- `self.csv.query(sql)` as seen from the filesystem layer. -/
def csvQuery (st : FS) (sql : Str) : Option Df := backendQuery st.dbExec sql

/-- The SQL text `f'SELECT * FROM \x60{table}\x60'`. -/
def selectAll (table : Str) : Str :=
  cl "SELECT * FROM `" ++ table ++ cl "`"

/-- The SQL text `f'SELECT * FROM \x60{t}\x60 LIMIT {limit} OFFSET {start}'`;
`limit` is a Python `int`, so it may be negative and is rendered with a sign. -/
def selectPage (table : Str) (limit : Int) (start : Nat) : Str :=
  cl "SELECT * FROM `" ++ table ++ cl "` LIMIT " ++ intStr limit ++
    cl " OFFSET " ++ natStr start

/-- `CSVFS.getattr`, restricted to the fields the claims mention (mode kind
and `st_size`); the time fields are wall-clock data outside the model.
Mirrors main.py lines 45-132 branch for branch. -/
def getattrModel (st : FS) (p : Str) : Except Errno Attr :=
  let k := getFileType p
  if k = .directory || k = .paginated_directory || k = .paginated_leaf_directory then
    .ok ⟨true, 4096⟩
  else if k = .stats_file then
    match lookupS st.stats (stemOf p) with
    | some doc => .ok ⟨false, utf8Len (jsonDumps doc)⟩
    | none => .ok ⟨false, 4096 * 4096⟩
  else if k = .query_file then
    match lookupS st.virtualFiles p with
    | some content => .ok ⟨false, utf8Len content⟩
    | none => .error .ENOENT
  else if k = .result_file then
    match lookupS st.queryResults (stemOf p) with
    | some (some df) => .ok ⟨false, utf8Len (dfToCsv df)⟩
    | _ => .error .ENOENT
  else if k = .csv_file then
    match csvQuery st (selectAll (stemOf p)) with
    | some df => .ok ⟨false, utf8Len (dfToCsvIndexed df)⟩
    | none => .error .ENOENT
  else if k = .paginated_csv_file then
    match parsePagination p with
    | some (table, a, b) =>
      match csvQuery st (selectPage table ((b : Int) - (a : Int) + 1) a) with
      | some df => if df.rows.length > 0 then .ok ⟨false, utf8Len (dfToCsv df)⟩
                   else .error .ENOENT
      | none => .error .ENOENT
    | none => .error .ENOENT
  else .error .ENOENT

/-- The result-file branch of `CSVFS.read` (main.py lines 229-235). -/
def resultFileContent (results : List (Str × Option Df)) (name : Str) : Str :=
  match lookupS results name with
  | some (some df) => dfToCsv df
  | _ => cl "Query result not found"

/-- `CSVFS._update_stats` as it affects the cache: a cached entry is
returned as is (a cached `global` document always carries
`up_to_date: true`, so it is never recomputed either); an absent entry is
computed and cached. The statistics computation itself is the state's
`computeStats` collaborator. -/
def updateStats (st : FS) (name : Str) : List (Str × Json) :=
  match lookupS st.stats name with
  | some _ => st.stats
  | none => insertS st.stats name (st.computeStats name)

/-- The full text materialized by `CSVFS.read` before byte-slicing
(the operation returns `content.encode('utf-8')[offset:offset+size]`);
also returns the statistics cache, which the stats branch may extend. -/
def readContent (st : FS) (p : Str) : Str × List (Str × Json) :=
  let k := getFileType p
  if k = .csv_file then
    match csvQuery st (selectAll (stemOf p)) with
    | some df => (dfToCsv df, st.stats)
    | none => (cl "Error reading table `" ++ stemOf p ++ cl "`", st.stats)
  else if k = .paginated_csv_file then
    match parsePagination p with
    | some (table, a, b) =>
      match csvQuery st (selectPage table ((b : Int) - (a : Int) + 1) a) with
      | some df => (dfToCsv df, st.stats)
      | none => (cl "Error reading paginated table `" ++ table ++ cl "` rows " ++
                  natStr a ++ cl "-" ++ natStr b, st.stats)
    | none => (cl "Invalid pagination format", st.stats)
  else if k = .query_file then
    ((lookupS st.virtualFiles p).getD [], st.stats)
  else if k = .result_file then
    (resultFileContent st.queryResults (stemOf p), st.stats)
  else if k = .stats_file then
    let stats' := updateStats st (stemOf p)
    (((lookupS stats' (stemOf p)).map jsonDumps).getD [], stats')
  else ([], st.stats)

/-- The loop body of `CSVFS._execute_query`: for each fragment of the
content split on `;`, a fragment with non-empty strip is run through
`backend.query` and its result overwrites `query_results[name]`.
Returns the updated result map together with the fragments actually
executed, in execution order. -/
def execFragments (st : FS) (name : Str) :
    List Str → List (Str × Option Df) → List (Str × Option Df) × List Str
  | [], results => (results, [])
  | q :: qs, results =>
    if (pyStrip q).length > 0 then
      let results' := insertS results name (csvQuery st q)
      let (finalRes, tr) := execFragments st name qs results'
      (finalRes, q :: tr)
    else execFragments st name qs results

/-- `CSVFS._execute_query(query_path)`: reads the current virtual-file
content, splits on `;`, executes the non-empty fragments in order. -/
def executeQuery (st : FS) (p : Str) : FS × List Str :=
  let content := (lookupS st.virtualFiles p).getD []
  let name := stemOf p
  let (results', tr) := execFragments st name (splitOnSemi content) st.queryResults
  ({ st with queryResults := results' }, tr)

/-- The content `CSVFS.write` stores for a query file: the entry is first
initialized to `''` if absent, then the written text replaces the whole
content (offset 0) or is spliced in after NUL-padding the current content
up to the offset. -/
def writtenContent (st : FS) (p data : Str) (offset : Nat) : Str :=
  let vf0 := if (lookupS st.virtualFiles p).isSome then st.virtualFiles
             else insertS st.virtualFiles p []
  let current := (lookupS vf0 p).getD []
  if offset = 0 then data
  else
    let cur := if current.length < offset then
                 current ++ List.replicate (offset - current.length) '\x00'
               else current
    cur.take offset ++ data ++ cur.drop (offset + data.length)

/-- `CSVFS.write(path, data, offset)`: only query files are writable; the
content is replaced (offset 0) or NUL-padded and spliced (offset > 0), and
if the new content stripped of whitespace ends in `;` the executor runs.
`data` is the UTF-8 decoding of the written bytes; the returned count is
`len(data)` in bytes. The third component is the list of SQL fragments
executed by this call. -/
def writeModel (st : FS) (p : Str) (data : Str) (offset : Nat) :
    Except Errno Nat × FS × List Str :=
  if getFileType p = .query_file then
    let vf0 := if (lookupS st.virtualFiles p).isSome then st.virtualFiles
               else insertS st.virtualFiles p []
    let content := writtenContent st p data offset
    let st1 : FS := { st with virtualFiles := insertS vf0 p content }
    if endsWithSemi (pyStrip content) then
      let (st2, tr) := executeQuery st1 p
      (.ok (utf8Len data), st2, tr)
    else (.ok (utf8Len data), st1, [])
  else (.error .EACCES, st, [])

/-- `CSVFS.unlink(path)`: deletes a query file that exists in the
virtual-file map together with its query result; every other path
(including a query-file path that was never created) raises `EACCES`. -/
def unlinkModel (st : FS) (p : Str) : Except Errno Unit × FS :=
  if getFileType p = .query_file ∧ (lookupS st.virtualFiles p).isSome then
    let vf := removeS st.virtualFiles p
    let name := stemOf p
    let qr := if (lookupS st.queryResults name).isSome then
                removeS st.queryResults name
              else st.queryResults
    (.ok (), { st with virtualFiles := vf, queryResults := qr })
  else (.error .EACCES, st)

/-- Outcome of one iteration of the encoding loop in
`CSVFilesystemBackend.sync_csv_to_db`: the whole try-block for one encoding
either raises `UnicodeDecodeError`, raises some other exception (with the
printed message), or succeeds through `to_sql` with the table contents
written. -/
inductive SyncAttempt where
  | decodeErr
  | otherErr (msg : Str)
  | ok (df : Df)

/-- The encoding loop of `sync_csv_to_db` (backend.py lines 352-375):
a decode failure falls through to the next encoding via `continue`; any
other exception prints the error and — the body having neither `return`
nor `break` there — likewise reaches the next iteration; a success writes
the table and returns. Result: the table written (if any) and the error
messages printed, in order. -/
def syncCsvToDb (attempt : Str → SyncAttempt) : List Str → Option Df × List Str
  | [] => (none, [])
  | enc :: rest =>
    match attempt enc with
    | .decodeErr => syncCsvToDb attempt rest
    | .otherErr m =>
      let (w, ms) := syncCsvToDb attempt rest
      (w, m :: ms)
    | .ok df => (some df, [])

/-- The fixed encoding list of `sync_csv_to_db`. -/
def encodings : List Str :=
  [cl "utf-8", cl "latin-1", cl "windows-1252", cl "iso-8859-1", cl "cp1252"]

/-- `sync_csv_to_db` on the full encoding list. -/
def syncRun (attempt : Str → SyncAttempt) : Option Df × List Str :=
  syncCsvToDb attempt encodings

/-- The column types recorded in a Typist schema. The source uses the
Python objects `int`, `float`, `bool`, `type(datetime)` and `str` as tags;
they are modelled as this enumeration. -/
inductive Ty where
  | int
  | float
  | bool
  | date
  | str
deriving DecidableEq

/-- One schema entry: the recorded type and whether it was inferred
(`True`) or user-declared (`False`). -/
structure SchemaEntry where
  ty : Ty
  inferred : Bool
deriving DecidableEq

/-- A dataframe column as the Typist sees and rewrites it: either the raw
string cells as read (`none` = missing/NaN), or the typed rewriting that an
inference strategy produced. Converted payloads that no claim inspects
(floats, datetimes) retain their source text. -/
inductive Col where
  | raw (cells : List (Option Str))
  | boolCol (cells : List Bool)
  | intCol (cells : List (Option Int))
  | floatCol (cells : List (Option Str))
  | dateCol (cells : List (Option Str))
  | strCol (cells : List (Option Str))
deriving DecidableEq

/-- Lower-casing as done by Python `str.lower()` on the ASCII values of the
boolean lexicon. -/
def lowerStr (s : Str) : Str := s.map Char.toLower

/-- The fixed boolean lexicon of `Typist._infer_bool`. -/
def boolLookup (s : Str) : Option Bool :=
  if s = cl "true" || s = cl "yes" || s = cl "1" || s = cl "t" || s = cl "y" then some true
  else if s = cl "false" || s = cl "no" || s = cl "0" || s = cl "f" || s = cl "n" then some false
  else none

/-- Order-preserving first-occurrence deduplication, with the values
already seen accumulated (`Series.unique`). -/
def uniqueAux (seen : List Str) : List Str → List Str
  | [] => []
  | v :: t => if v ∈ seen then uniqueAux seen t else v :: uniqueAux (v :: seen) t

/-- `Series.unique`: distinct values in order of first appearance. -/
def uniqueVals (l : List Str) : List Str := uniqueAux [] l

/-- Python `int()`/`float()`-style numeric literal accepted by
`pd.to_numeric` on a string cell: optional sign, then digits with an
optional fractional part (at least one digit overall; scientific notation
does not occur in the data the claims exercise). Returns the signed integer
part, the fraction digits, and whether the value is whole. -/
def parseNum (s0 : Str) : Option (Int × Str × Bool) :=
  let s := pyStrip s0
  let (neg, s1) : Bool × Str :=
    match s with
    | '-' :: r => (true, r)
    | '+' :: r => (false, r)
    | _ => (false, s)
  let ip := s1.takeWhile Char.isDigit
  match s1.dropWhile Char.isDigit with
  | [] => if ip.isEmpty then none
          else some ((if neg then -(natFromDigits ip : Int) else (natFromDigits ip : Int)), [], true)
  | '.' :: r =>
    let fp := r.takeWhile Char.isDigit
    if (r.dropWhile Char.isDigit).isEmpty && !(ip.isEmpty && fp.isEmpty) then
      some ((if neg then -(natFromDigits ip : Int) else (natFromDigits ip : Int)), fp,
            fp.all (fun c => c = '0'))
    else none
  | _ => none

/-- `Typist._infer_bool`: succeeds only when the non-null cells have exactly
two distinct values, both of which (lower-cased) lie in the lexicon; nulls
map to `False`. A distinct-count other than two returns no pair (the caller
unpacking raises `TypeError`), a lexicon miss raises `ValueError`; both are
failures of this strategy. -/
def inferBool (cells : List (Option Str)) : Option Col :=
  let nonNull := cells.filterMap id
  let uniq := uniqueVals nonNull
  match uniq with
  | [u, v] =>
    match boolLookup (lowerStr u), boolLookup (lowerStr v) with
    | some _, some _ =>
      some (.boolCol (cells.map (fun c =>
        match c with
        | some s => (boolLookup (lowerStr s)).getD false
        | none => false)))
    | _, _ => none
  | _ => none

/-- `Typist._infer_number`: every non-null cell must parse numerically
(otherwise `pd.to_numeric` raises); if all non-null values are whole the
column becomes nullable `Int64` (so a column with no non-null values at all
is an *int* column — the `(... % 1 == 0).all()` test over an empty series
is vacuously true), else `Float64`. -/
def inferNumber (cells : List (Option Str)) : Option (Ty × Col) :=
  let nonNull := cells.filterMap id
  if nonNull.all (fun s => (parseNum s).isSome) then
    if nonNull.all (fun s => ((parseNum s).map (fun t => t.2.2)).getD false) then
      some (.int, .intCol (cells.map (fun c => c.bind (fun s => (parseNum s).map (·.1)))))
    else some (.float, .floatCol cells)
  else none

/-- The eleven `strptime` format strings tried by `Typist._infer_date`,
encoded by what they require: date order and separator, then an optional
time, then an optional fractional-seconds part. -/
structure DateFmt where
  monthFirst : Bool
  sep : Char
  time : Option (Char × Bool)

/-- Parse `1-2` digits as a number within a range (`strptime` field). -/
def parseField (lo hi : Nat) (s : Str) : Option (Nat × Str) :=
  let ds := (s.take 2).takeWhile Char.isDigit
  if ds.isEmpty then none
  else
    let v := natFromDigits ds
    if lo ≤ v && v ≤ hi then some (v, s.drop ds.length) else none

/-- Days per month, with the Gregorian leap rule. -/
def daysInMonth (y m : Nat) : Nat :=
  if m = 2 then
    if y % 4 = 0 && (y % 100 ≠ 0 || y % 400 = 0) then 29 else 28
  else if m = 4 || m = 6 || m = 9 || m = 11 then 30
  else 31

/-- Expect a literal character. -/
def expectChar (c : Char) (s : Str) : Option Str :=
  match s with
  | d :: r => if d = c then some r else none
  | _ => none

/-- Exactly four digits (`%Y`). -/
def parseYear (s : Str) : Option (Nat × Str) :=
  let ds := s.take 4
  if ds.length = 4 && ds.all Char.isDigit then some (natFromDigits ds, s.drop 4) else none

/-- `HH:MM:SS` with optional `.ffffff`. -/
def parseTime (withFrac : Bool) (s : Str) : Option Str := do
  let (_, s) ← parseField 0 23 s
  let s ← expectChar ':' s
  let (_, s) ← parseField 0 59 s
  let s ← expectChar ':' s
  let (_, s) ← parseField 0 61 s
  if withFrac then do
    let s ← expectChar '.' s
    let ds := (s.take 6).takeWhile Char.isDigit
    if ds.isEmpty then none else some (s.drop ds.length)
  else some s

/-- `datetime.strptime` for one of the eleven formats: full-match parsing
with calendar validation. -/
def parseDate (fmt : DateFmt) (s : Str) : Bool :=
  (do
    let (y, m, d, s) ← (do
      if fmt.monthFirst then do
        let (m, s) ← parseField 1 12 s
        let s ← expectChar fmt.sep s
        let (d, s) ← parseField 1 31 s
        let s ← expectChar fmt.sep s
        let (y, s) ← parseYear s
        pure (y, m, d, s)
      else do
        let (y, s) ← parseYear s
        let s ← expectChar fmt.sep s
        let (m, s) ← parseField 1 12 s
        let s ← expectChar fmt.sep s
        let (d, s) ← parseField 1 31 s
        pure (y, m, d, s))
    if d > daysInMonth y m then none
    else match fmt.time with
    | some (tsep, withFrac) => do
      let s ← expectChar tsep s
      let s ← parseTime withFrac s
      if s.isEmpty then some () else none
    | none => if s.isEmpty then some () else none : Option Unit).isSome

/-- The eleven formats, in the order `Typist._infer_date` tries them. -/
def dateFormats : List DateFmt :=
  [⟨true, '/', none⟩,
   ⟨true, '-', none⟩,
   ⟨false, '-', none⟩,
   ⟨true, '/', some (' ', false)⟩,
   ⟨true, '/', some (' ', true)⟩,
   ⟨true, '-', some (' ', false)⟩,
   ⟨true, '-', some (' ', true)⟩,
   ⟨false, '-', some (' ', false)⟩,
   ⟨false, '-', some (' ', true)⟩,
   ⟨false, '-', some ('T', false)⟩,
   ⟨false, '-', some ('T', true)⟩]

/-- `Typist._infer_date`: the formats are tried in order; the first under
which every non-null cell parses wins, else the strategy fails. -/
def inferDate (cells : List (Option Str)) : Option Col :=
  let nonNull := cells.filterMap id
  if dateFormats.any (fun f => nonNull.all (parseDate f)) then
    some (.dateCol cells)
  else none

/-- Replace empty-string cells by missing values
(`df[col].replace('', pd.NA)`). -/
def replaceEmpty (cells : List (Option Str)) : List (Option Str) :=
  cells.map (fun c => if c = some [] then none else c)

/-- `df[col].astype(t)` on a raw object column of string cells, for the
type tokens a schema can record. `int` requires every cell non-null and an
integer literal (a missing value or a non-integer text raises); `float`
requires non-null cells to parse numerically; `bool` maps Python truthiness
(a missing value is `NaN`, which is truthy, an empty string falsy);
`str` renders missing values as the string `nan`; the `type(datetime)` tag
is the object `type` itself, which numpy rejects as a dtype, so a `DATE`
coercion always raises. Failure means the exception propagates out of
`Typist.__call__`. -/
def coerceCol (t : Ty) (cells : List (Option Str)) : Option Col :=
  match t with
  | .int =>
    if cells.all (fun c => match c with
        | some s => match parseNum s with
          | some (_, fp, _) => fp.isEmpty
          | none => false
        | none => false) then
      some (.intCol (cells.map (fun c => c.bind (fun s => (parseNum s).map (·.1)))))
    else none
  | .float =>
    if (cells.filterMap id).all (fun s => (parseNum s).isSome) then
      some (.floatCol cells)
    else none
  | .bool =>
    some (.boolCol (cells.map (fun c => match c with
      | some s => !s.isEmpty
      | none => true)))
  | .str =>
    some (.strCol (cells.map (fun c => some (c.getD (cl "nan")))))
  | .date => none

/-- One new-column pass of `Typist.__call__` (the `else` branch): empty
strings become missing, then the strategies run in their fixed order —
boolean, numeric, datetime — and the first success decides the type;
otherwise the column stays as it is and the type defaults to `str`. -/
def inferColumn (cells : List (Option Str)) : Ty × Col :=
  let cells0 := replaceEmpty cells
  match inferBool cells0 with
  | some col => (.bool, col)
  | none =>
    match inferNumber cells0 with
    | some (ty, col) => (ty, col)
    | none =>
      match inferDate cells0 with
      | some col => (.date, col)
      | none => (.str, .raw cells0)

/-- `Typist.__call__(df)` over all columns: a column already in the schema
is coerced to its recorded type (a coercion failure aborts the call, with
the schema mutations made so far kept, since the schema dict is updated in
place); a new column is inferred and its entry recorded with
`inferred=True`. Returns the final schema and the rewritten columns
(`none` when an exception escaped). -/
def applyTypist (schema : List (Str × SchemaEntry)) (df : List (Str × List (Option Str))) :
    List (Str × SchemaEntry) × Option (List (Str × Col)) :=
  match df with
  | [] => (schema, some [])
  | (name, cells) :: rest =>
    match lookupS schema name with
    | some e =>
      match coerceCol e.ty cells with
      | some col =>
        match applyTypist schema rest with
        | (schema', some cols) => (schema', some ((name, col) :: cols))
        | (schema', none) => (schema', none)
      | none => (schema, none)
    | none =>
      let (ty, col) := inferColumn cells
      let schema' := insertS schema name ⟨ty, true⟩
      match applyTypist schema' rest with
      | (schema'', some cols) => (schema'', some ((name, col) :: cols))
      | (schema'', none) => (schema'', none)

/-- Python `range(start, stop, step)` over naturals (`step > 0`; the call
sites use `PAGE_SIZE`, which the CLI requires to be positive). -/
def rangeStep (start stop step : Nat) : List Nat :=
  if _h : 0 < step ∧ start < stop then
    start :: rangeStep (start + step) stop step
  else []
termination_by stop - start
decreasing_by omega

/-- The page windows enumerated by `CSVFS.readdir` under `/data/paged_<T>`
(main.py lines 164-169): for each `start_row` in
`range(0, total_rows, PAGE_SIZE)`, with
`end_row = min(start_row + PAGE_SIZE - 1, total_rows - 1)`, a label
`(start_row+1, end_row+1)` is emitted when `start_row ≤ end_row`. The
filename rendered is `f'{table}.{start+1}-{end+1}'`, whose two decimal
fields `_parse_pagination` recovers verbatim, so windows are tracked as
the number pairs. -/
def pagesFor (totalRows pageSize : Nat) : List (Nat × Nat) :=
  (rangeStep 0 totalRows pageSize).filterMap (fun s =>
    let e := min (s + pageSize - 1) (totalRows - 1)
    if s ≤ e then some (s + 1, e + 1) else none)

/-- The row indices (0-based) of a table of `r` rows returned by
`SELECT * FROM t LIMIT (b-a+1) OFFSET a`, the query issued by `CSVFS.read`
for the page label `(a, b)` (labels satisfy `a ≤ b`, so the `Nat`
subtraction agrees with Python's). -/
def pageRows (r : Nat) (w : Nat × Nat) : List Nat :=
  ((List.range r).drop w.1).take (w.2 + 1 - w.1)

/-- A concrete empty mount state used by witnesses. -/
def fsEmpty : FS :=
  ⟨[], [], [], fun _ => .error [], fun _ => .null⟩

/-- A mount state whose store answers `SELECT 1`, used to witness C3. -/
def fsSelect : FS :=
  ⟨[], [], [], fun s => if s = cl "SELECT 1" then .ok ⟨[cl "1"], [[cl "1"]]⟩
                        else .error [], fun _ => .null⟩

/-- A mount state with one mirror table `t` of one row, used by C2. -/
def fsOneTable : FS :=
  ⟨[], [], [],
   fun s => if s = selectAll (cl "t") then .ok ⟨[cl "name"], [[cl "Ada"]]⟩
            else .error [],
   fun _ => .null⟩

/-- A mount state holding one stored query file, used to witness C2. -/
def fsOneQuery : FS :=
  ⟨[(cl "/sql/queries/q.sql", cl "SELECT 1;")], [], [],
   fun _ => .error [], fun _ => .null⟩

/-- A concrete attempt behaviour: the first encoding raises a non-decode
exception, the second succeeds, later ones would decode-fail. -/
def attemptBoom : Str → SyncAttempt := fun e =>
  if e = cl "utf-8" then .otherErr (cl "boom")
  else if e = cl "latin-1" then .ok ⟨[cl "a"], [[cl "x"]]⟩
  else .decodeErr

/-- The first fully successful decode attempt in an encoding list. -/
def firstSyncSuccess (attempt : Str → SyncAttempt) (l : List Str) : Option Df :=
  l.findSome? (fun e => match attempt e with | .ok df => some df | _ => none)

/-! ## Helper lemmas -/

theorem lookupS_insertS {α : Type} (s : List (Str × α)) (k : Str) (v : α) (key : Str) :
    lookupS (insertS s k v) key = if k = key then some v else lookupS s key := by
  induction s with
  | nil => simp [insertS, lookupS]
  | cons hd tl ih =>
    obtain ⟨k', w⟩ := hd
    by_cases h : k' = k
    · subst h
      simp only [insertS, if_pos rfl, lookupS]
      by_cases h2 : k' = key <;> simp [h2, lookupS]
    · simp only [insertS, if_neg h, lookupS, ih]
      by_cases h2 : k' = key
      · by_cases h3 : k = key
        · exact absurd (h2.trans h3.symm) h
        · simp [h2, h3]
      · simp [h2]

theorem insertS_insertS {α : Type} (s : List (Str × α)) (k : Str) (v w : α) :
    insertS (insertS s k v) k w = insertS s k w := by
  induction s with
  | nil => simp [insertS]
  | cons hd tl ih =>
    obtain ⟨k', u⟩ := hd
    by_cases h : k' = k <;> simp [insertS, h, ih]

theorem rangeStep_ge {start stop step : Nat} :
    ∀ s ∈ rangeStep start stop step, start ≤ s := by
  intro s hs
  rw [rangeStep] at hs
  split at hs
  · rw [List.mem_cons] at hs
    rcases hs with h | h
    · omega
    · have := rangeStep_ge s h
      omega
  · simp at hs
termination_by stop - start
decreasing_by omega

theorem rangeStep_lt {start stop step : Nat} :
    ∀ s ∈ rangeStep start stop step, s < stop := by
  intro s hs
  rw [rangeStep] at hs
  split at hs
  · rw [List.mem_cons] at hs
    rcases hs with h | h
    · omega
    · exact rangeStep_lt s h
  · simp at hs
termination_by stop - start
decreasing_by omega

theorem range'_drop (m : Nat) : ∀ (s n : Nat),
    (List.range' s n).drop m = List.range' (s + m) (n - m) := by
  induction m with
  | zero => simp
  | succ m ih =>
    intro s n
    cases n with
    | zero => simp
    | succ n =>
      rw [List.range'_succ]
      have : s + (m + 1) = (s + 1) + m := by omega
      simp [ih (s + 1) n, this]

theorem range'_take (m : Nat) : ∀ (s n : Nat),
    (List.range' s n).take m = List.range' s (min m n) := by
  induction m with
  | zero => simp
  | succ m ih =>
    intro s n
    cases n with
    | zero => simp
    | succ n =>
      rw [List.range'_succ, List.take_succ_cons, ih (s + 1) n]
      have : min (m + 1) (n + 1) = min m n + 1 := by omega
      rw [this, List.range'_succ]

theorem mem_pageRows {R a b r : Nat} :
    r ∈ pageRows R (a, b) ↔ a ≤ r ∧ r < a + min (b + 1 - a) (R - a) := by
  unfold pageRows
  rw [List.range_eq_range', range'_drop, range'_take, List.mem_range'_1]
  omega

theorem filterMap_eq_map_on {α β : Type} (l : List α) (f : α → Option β) (g : α → β)
    (h : ∀ x ∈ l, f x = some (g x)) : l.filterMap f = l.map g := by
  induction l with
  | nil => simp
  | cons hd tl ih =>
    rw [List.filterMap_cons, h hd (by simp), List.map_cons,
      ih (fun x hx => h x (by simp [hx]))]

theorem pagesFor_eq {R P : Nat} (hP : 0 < P) :
    pagesFor R P = (rangeStep 0 R P).map
      (fun s => (s + 1, min (s + P - 1) (R - 1) + 1)) := by
  unfold pagesFor
  apply filterMap_eq_map_on
  intro s hs
  have h1 : s < R := rangeStep_lt s hs
  have h2 : s ≤ min (s + P - 1) (R - 1) := by omega
  simp only [h2, if_pos]

theorem countP_window_one (P r : Nat) (hP : 0 < P) (s0 R : Nat)
    (h1 : s0 < r) (h2 : r < R) :
    ((rangeStep s0 R P).countP (fun s => decide (s < r ∧ r ≤ s + P))) = 1 := by
  rw [rangeStep, dif_pos ⟨hP, by omega⟩, List.countP_cons]
  by_cases hc : r ≤ s0 + P
  · have hzero : ((rangeStep (s0 + P) R P).countP (fun s => decide (s < r ∧ r ≤ s + P))) = 0 := by
      rw [List.countP_eq_zero]
      intro s hs
      have := rangeStep_ge s hs
      simp
      omega
    rw [hzero, if_pos (by simp; omega)]
  · have hrec := countP_window_one P r hP (s0 + P) R (by omega) h2
    rw [hrec, if_neg (by simp; omega)]
termination_by r - s0
decreasing_by omega

theorem execFragments_trace (st : FS) (name : Str) :
    ∀ (qs : List Str) (res : List (Str × Option Df)),
      (execFragments st name qs res).2 =
        qs.filter (fun q => (pyStrip q).length > 0) := by
  intro qs
  induction qs with
  | nil => intro res; simp [execFragments]
  | cons q qs ih =>
    intro res
    by_cases h : (pyStrip q).length > 0
    · simp only [execFragments, if_pos h]
      rw [List.filter_cons_of_pos (by simpa using h)]
      simp [ih]
    · simp only [execFragments, if_neg h]
      rw [List.filter_cons_of_neg (by simpa using h)]
      exact ih _

theorem execFragments_results (st : FS) (name : Str) :
    ∀ (qs : List Str) (res : List (Str × Option Df)),
      (execFragments st name qs res).1 =
        match (qs.filter (fun q => (pyStrip q).length > 0)).getLast? with
        | none => res
        | some lq => insertS res name (csvQuery st lq) := by
  intro qs
  induction qs with
  | nil => intro res; simp [execFragments]
  | cons q qs ih =>
    intro res
    by_cases h : (pyStrip q).length > 0
    · simp only [execFragments, if_pos h]
      rw [List.filter_cons_of_pos (by simpa using h)]
      cases hf : qs.filter (fun q => (pyStrip q).length > 0) with
      | nil =>
        simp only [List.getLast?_cons, hf]
        simp only [ih, hf]
        rfl
      | cons f fs =>
        have hlast : ∃ lq, (f :: fs).getLast? = some lq := ⟨(f :: fs).getLast (by simp), List.getLast?_eq_getLast _ _⟩
        obtain ⟨lq, hlq⟩ := hlast
        have : (q :: f :: fs).getLast? = some lq := by
          rw [List.getLast?_cons_cons, hlq]
        rw [this]
        simp only [ih, hf, hlq]
        rw [insertS_insertS]
    · simp only [execFragments, if_neg h]
      rw [List.filter_cons_of_neg (by simpa using h)]
      exact ih _

/-! ## Claim C1: pagination coverage -/

/-- Claim C1 counterexample: for the mirror table with `R = 4` rows and page
size `P = 3` (`R > P`), feeding the labels enumerated by `readdir` back
through `read`'s LIMIT/OFFSET protocol does not cover `[0, R-1]`: row 0
is in the range but belongs to no page window, because the labels are
1-based while `read` uses the label's first number directly as the 0-based
OFFSET. -/
theorem c1_pagination_cex :
    3 < 4 ∧ (0 : Nat) < 4 ∧
    ¬ 0 ∈ ((pagesFor 4 3).map (pageRows 4)).flatten := by
  refine ⟨by decide, by decide, ?_⟩
  simp [pagesFor, rangeStep, List.filterMap, pageRows, List.range, List.range.loop]

/-- Claim C1 amended: for every mirror table with `R` rows and page size
`P` (`0 < P < R`), the page windows enumerated by `readdir` under
`/data/paged_<T>/`, fed back through `read`'s LIMIT/OFFSET protocol, cover
the row range `[1, R-1]` with each such row in exactly one window, while
row 0 appears in no window. -/
theorem c1_pagination_amended (R P : Nat) (hP : 0 < P) (hR : P < R) :
    (∀ r, 0 < r → r < R →
      ((pagesFor R P).countP (fun w => decide (r ∈ pageRows R w))) = 1) ∧
    ((pagesFor R P).countP (fun w => decide (0 ∈ pageRows R w))) = 0 := by
  constructor
  · intro r hr0 hrR
    rw [pagesFor_eq hP, List.countP_map]
    have hcongr : ∀ s ∈ rangeStep 0 R P,
        ((fun w => decide (r ∈ pageRows R w)) ∘
          (fun s => (s + 1, min (s + P - 1) (R - 1) + 1))) s = true ↔
        (fun s => decide (s < r ∧ r ≤ s + P)) s = true := by
      intro s hs
      have hsR : s < R := rangeStep_lt s hs
      simp only [Function.comp_apply, decide_eq_true_eq]
      rw [mem_pageRows]
      omega
    rw [List.countP_congr hcongr]
    exact countP_window_one P r hP 0 R hr0 hrR
  · rw [List.countP_eq_zero]
    intro w hw
    rw [pagesFor_eq hP, List.mem_map] at hw
    obtain ⟨s, hs, rfl⟩ := hw
    simp only [decide_eq_true_eq]
    rw [mem_pageRows]
    omega

/-- Claim C1 amended, witnessed at `R = 4`, `P = 3`, row 2. -/
theorem c1_pagination_witness :
    ((pagesFor 4 3).countP (fun w => decide (2 ∈ pageRows 4 w))) = 1 :=
  (c1_pagination_amended 4 3 (by decide) (by decide)).1 2 (by decide) (by decide)

/-! ## Claim C7: the Namespace Resolver is total and pure -/

/-- Claim C7: `_get_file_type` is a total pure function: every path is
assigned exactly one kind, that kind lies in the closed nine-kind set, and
— the model being a function of the path alone, mirroring the source,
which consults only the constant `virtual_dirs` set installed at mount —
repeated classification of the same path yields the same kind. -/
theorem c7_resolver_total (p : Str) :
    (∃! k, getFileType p = k) ∧
    getFileType p ∈ [FileKind.directory, .stats_file, .paginated_csv_file,
      .csv_file, .paginated_leaf_directory, .paginated_directory,
      .query_file, .result_file, .unknown] := by
  refine ⟨⟨getFileType p, rfl, fun y h => h.symm⟩, ?_⟩
  cases h : getFileType p <;> simp

/-! ## Claim C4: query failure never escapes; missing results read as a
fixed placeholder -/

/-- Claim C4: `CSVFilesystemBackend.query` either returns a table or the
null marker and never lets the underlying exception reach its caller (its
body is a catch-all `try/except`), and when the stored result for a name
is absent or null, reading `/sql/results/<name>.csv` yields exactly the
literal `Query result not found`. -/
theorem c4_query_never_raises (exec : Str → Except Str Df) (sql : Str)
    (results : List (Str × Option Df)) (name : Str) :
    (backendQuery exec sql = none ∨ ∃ df, backendQuery exec sql = some df) ∧
    ((lookupS results name = none ∨ lookupS results name = some none) →
      resultFileContent results name = cl "Query result not found") := by
  constructor
  · unfold backendQuery
    cases exec sql with
    | ok df => exact Or.inr ⟨df, rfl⟩
    | error e => exact Or.inl rfl
  · rintro (h | h) <;> simp [resultFileContent, h]

/-- Claim C4, witnessed: with no stored results, reading the result file
for `q1` yields the placeholder. -/
theorem c4_query_never_raises_witness :
    resultFileContent ([] : List (Str × Option Df)) (cl "q1") =
      cl "Query result not found" :=
  (c4_query_never_raises (fun _ => .error []) (cl "SELECT 1") [] (cl "q1")).2
    (Or.inl rfl)

/-! ## Claim C10: unlink of a never-created query file -/

/-- Claim C10: `unlink` on a path that classifies as a query file but has
no entry in the virtual-file map raises `EACCES` (not `ENOENT`), and the
state — in particular the virtual-file map and the query-result map — is
unchanged. -/
theorem c10_unlink_eacces (st : FS) (p : Str)
    (hk : getFileType p = .query_file)
    (hv : lookupS st.virtualFiles p = none) :
    unlinkModel st p = (.error .EACCES, st) := by
  unfold unlinkModel
  rw [if_neg]
  rintro ⟨-, h2⟩
  rw [hv] at h2
  simp at h2

/-- Claim C10, witnessed on the empty mount state. -/
theorem c10_unlink_eacces_witness :
    unlinkModel fsEmpty (cl "/sql/queries/q.sql") = (.error .EACCES, fsEmpty) :=
  c10_unlink_eacces fsEmpty (cl "/sql/queries/q.sql") (by decide) rfl

/-! ## Claim C6: encoding fallback in sync_csv_to_db -/

/-- Claim C6 counterexample: when the `utf-8` attempt raises a non-decode
exception, the file is *not* abandoned — the error is reported and the next
encoding (`latin-1`) is still attempted, and its success writes the mirror
table; the claim's "no further encodings attempted, mirror table not
created" is violated. -/
theorem c6_sync_encodings_cex :
    attemptBoom (cl "utf-8") = .otherErr (cl "boom") ∧
    (syncRun attemptBoom).1 = some ⟨[cl "a"], [[cl "x"]]⟩ ∧
    (syncRun attemptBoom).2 = [cl "boom"] := by
  refine ⟨rfl, ?_, ?_⟩ <;> rfl

/-- Claim C6 amended: encodings are attempted in the fixed order `utf-8,
latin-1, windows-1252, iso-8859-1, cp1252`; a decode failure moves to the
next encoding, and any other exception causes the file's error to be
reported and the *next encoding to be attempted as well* (the loop body has
no `return`/`break` in that branch); the mirror table is created or updated
exactly when some encoding's attempt fully succeeds, with the first such
success written. -/
theorem c6_sync_encodings_amended (attempt : Str → SyncAttempt) :
    (∀ e rest, attempt e = .decodeErr →
      syncCsvToDb attempt (e :: rest) = syncCsvToDb attempt rest) ∧
    (∀ e rest m, attempt e = .otherErr m →
      (syncCsvToDb attempt (e :: rest)).1 = (syncCsvToDb attempt rest).1 ∧
      (syncCsvToDb attempt (e :: rest)).2 = m :: (syncCsvToDb attempt rest).2) ∧
    (∀ l, (syncCsvToDb attempt l).1 = firstSyncSuccess attempt l) ∧
    (syncRun attempt).1 = firstSyncSuccess attempt encodings := by
  have hfirst : ∀ l, (syncCsvToDb attempt l).1 = firstSyncSuccess attempt l := by
    intro l
    induction l with
    | nil => simp [syncCsvToDb, firstSyncSuccess]
    | cons e rest ih =>
      rw [firstSyncSuccess, List.findSome?_cons]
      cases hae : attempt e with
      | decodeErr => simp [syncCsvToDb, hae, ih, firstSyncSuccess]
      | otherErr m => simp [syncCsvToDb, hae, ih, firstSyncSuccess]
      | ok df => simp [syncCsvToDb, hae]
  refine ⟨?_, ?_, hfirst, hfirst encodings⟩
  · intro e rest h
    simp [syncCsvToDb, h]
  · intro e rest m h
    simp [syncCsvToDb, h]

/-- Claim C6 amended, witnessed: a non-decode failure on the first encoding
is reported and the remaining encodings still run. -/
theorem c6_sync_encodings_witness :
    (syncCsvToDb attemptBoom (cl "utf-8" :: [cl "latin-1"])).2 =
      cl "boom" :: (syncCsvToDb attemptBoom [cl "latin-1"]).2 :=
  ((c6_sync_encodings_amended attemptBoom).2.1 (cl "utf-8") [cl "latin-1"]
    (cl "boom") rfl).2

/-! ## Claim C5: typing of a column with zero non-null values -/

/-- Claim C5 counterexample: a fresh column whose cells are all null/empty
is assigned type `int`, not `string`: the boolean strategy fails (zero
distinct values), but `pd.to_numeric` on the empty non-null series
succeeds and the whole-number check over an empty series is vacuously
true, so `Typist.apply` records `int`. -/
theorem c5_allnull_cex :
    (applyTypist [] [(cl "age", [none, some (cl "")])]).1 =
      [(cl "age", ⟨Ty.int, true⟩)] ∧ Ty.int ≠ Ty.str := by
  constructor
  · rfl
  · intro h
    cases h

/-- Claim C5 amended: for every column not already present in the schema
whose cells are all null/empty, `Typist.apply` assigns it type `int`
(recorded as inferred). -/
theorem c5_allnull_amended (schema : List (Str × SchemaEntry)) (name : Str)
    (cells : List (Option Str))
    (h1 : lookupS schema name = none)
    (h2 : ∀ c ∈ cells, c = none ∨ c = some (cl "")) :
    lookupS (applyTypist schema [(name, cells)]).1 name =
      some ⟨Ty.int, true⟩ := by
  have hemp : cl "" = [] := rfl
  have hrep : (replaceEmpty cells).filterMap id = [] := by
    clear h1
    induction cells with
    | nil => simp [replaceEmpty]
    | cons c t ih =>
      have hrec := ih (fun x hx => h2 x (List.mem_cons_of_mem _ hx))
      simp only [replaceEmpty, List.map_cons, List.filterMap_cons] at hrec ⊢
      rcases h2 c (List.mem_cons_self _ _) with h | h
      · rw [h]
        simpa [replaceEmpty] using hrec
      · rw [h, hemp]
        simpa [replaceEmpty] using hrec
  have hbool : inferBool (replaceEmpty cells) = none := by
    unfold inferBool
    rw [hrep]
    rfl
  have hnum : inferNumber (replaceEmpty cells) = some (Ty.int,
      .intCol ((replaceEmpty cells).map
        (fun c => c.bind (fun s => (parseNum s).map (·.1))))) := by
    unfold inferNumber
    rw [hrep]
    rfl
  have hinf : inferColumn cells = (Ty.int, .intCol ((replaceEmpty cells).map
      (fun c => c.bind (fun s => (parseNum s).map (·.1))))) := by
    unfold inferColumn
    simp only [hbool, hnum]
  have happ : applyTypist schema [(name, cells)] =
      (insertS schema name ⟨Ty.int, true⟩, some [(name, (inferColumn cells).2)]) := by
    simp [applyTypist, h1, hinf]
  rw [happ]
  simp [lookupS_insertS]

/-- Claim C5 amended, witnessed on a single all-null column. -/
theorem c5_allnull_witness :
    lookupS (applyTypist [] [(cl "c", [none])]).1 (cl "c") =
      some ⟨Ty.int, true⟩ :=
  c5_allnull_amended [] (cl "c") [none] rfl (by decide)

/-! ## Claim C8: user-declared schema entries survive apply -/

/-- Claim C8: for every column already present in a Typist's schema,
`Typist.__call__` coerces the column's values through `astype` but never
changes the recorded type or inferred flag of that entry — whether the
apply completes or aborts on a coercion failure, and whatever new entries
are added for other columns. -/
theorem c8_schema_preserved (schema : List (Str × SchemaEntry))
    (df : List (Str × List (Option Str))) (name : Str) (e : SchemaEntry)
    (h : lookupS schema name = some e) :
    lookupS (applyTypist schema df).1 name = some e := by
  induction df generalizing schema with
  | nil => simpa [applyTypist] using h
  | cons col rest ih =>
    obtain ⟨nm, cells⟩ := col
    cases hnm : lookupS schema nm with
    | some e' =>
      cases hc : coerceCol e'.ty cells with
      | some colv =>
        have hgoal : (applyTypist schema ((nm, cells) :: rest)).1 =
            (applyTypist schema rest).1 := by
          simp only [applyTypist, hnm, hc]
          cases applyTypist schema rest with
          | mk s' o => cases o <;> rfl
        rw [hgoal]
        exact ih schema h
      | none =>
        have hgoal : (applyTypist schema ((nm, cells) :: rest)).1 = schema := by
          simp only [applyTypist, hnm, hc]
        rw [hgoal]
        exact h
    | none =>
      have hne : nm ≠ name := by
        intro hEq
        rw [hEq, h] at hnm
        cases hnm
      have h' : lookupS (insertS schema nm ⟨(inferColumn cells).1, true⟩) name = some e := by
        rw [lookupS_insertS, if_neg hne, h]
      have hgoal : (applyTypist schema ((nm, cells) :: rest)).1 =
          (applyTypist (insertS schema nm ⟨(inferColumn cells).1, true⟩) rest).1 := by
        simp only [applyTypist, hnm]
        cases applyTypist (insertS schema nm ⟨(inferColumn cells).1, true⟩) rest with
        | mk s' o => cases o <;> rfl
      rw [hgoal]
      exact ih _ h'

/-- Claim C8, witnessed: a user-declared `str` entry for `age` survives an
apply that coerces the column. -/
theorem c8_schema_preserved_witness :
    lookupS (applyTypist [(cl "age", ⟨Ty.str, false⟩)]
      [(cl "age", [some (cl "36"), none])]).1 (cl "age") =
      some ⟨Ty.str, false⟩ :=
  c8_schema_preserved [(cl "age", ⟨Ty.str, false⟩)]
    [(cl "age", [some (cl "36"), none])] (cl "age") ⟨Ty.str, false⟩ rfl

theorem executeQuery_spec (st : FS) (p : Str) (content : Str)
    (hv : lookupS st.virtualFiles p = some content) :
    (executeQuery st p).2 =
      (splitOnSemi content).filter (fun q => (pyStrip q).length > 0) ∧
    (executeQuery st p).1.queryResults =
      (match ((splitOnSemi content).filter
          (fun q => (pyStrip q).length > 0)).getLast? with
       | none => st.queryResults
       | some lq => insertS st.queryResults (stemOf p) (csvQuery st lq)) ∧
    (executeQuery st p).1.virtualFiles = st.virtualFiles := by
  unfold executeQuery
  rw [hv]
  refine ⟨?_, ?_, rfl⟩
  · simpa using execFragments_trace st (stemOf p) (splitOnSemi content) st.queryResults
  · simpa using execFragments_results st (stemOf p) (splitOnSemi content) st.queryResults

/-! ## Claim C3: the write protocol for query files -/

/-- Claim C3: after a write to a query file, the stored content is the
spliced `writtenContent`; the executor runs exactly when that content,
stripped of whitespace, ends in `;`. When it runs, the fragments executed
(in order) are precisely the non-empty fragments of the content split on
`;`, and `query_results[stem]` ends up holding the result of the last
non-empty fragment (if none exists the map is untouched). When the
terminator is absent, nothing executes and the query-result map is
unchanged, so no entry for the stem appears under `/sql/results`. -/
theorem c3_query_write_exec (st : FS) (p : Str) (data : Str) (off : Nat)
    (hk : getFileType p = .query_file) :
    lookupS (writeModel st p data off).2.1.virtualFiles p =
      some (writtenContent st p data off) ∧
    (endsWithSemi (pyStrip (writtenContent st p data off)) = false →
      (writeModel st p data off).2.1.queryResults = st.queryResults ∧
      (writeModel st p data off).2.2 = []) ∧
    (endsWithSemi (pyStrip (writtenContent st p data off)) = true →
      (writeModel st p data off).2.2 =
        (splitOnSemi (writtenContent st p data off)).filter
          (fun q => (pyStrip q).length > 0)) ∧
    (endsWithSemi (pyStrip (writtenContent st p data off)) = true →
      ∀ qs lastq,
        (splitOnSemi (writtenContent st p data off)).filter
          (fun q => (pyStrip q).length > 0) = qs ++ [lastq] →
        lookupS (writeModel st p data off).2.1.queryResults (stemOf p) =
          some (csvQuery st lastq)) ∧
    (endsWithSemi (pyStrip (writtenContent st p data off)) = true →
      (splitOnSemi (writtenContent st p data off)).filter
        (fun q => (pyStrip q).length > 0) = [] →
      (writeModel st p data off).2.1.queryResults = st.queryResults) := by
  set C := writtenContent st p data off with hC
  set vf0 := if (lookupS st.virtualFiles p).isSome then st.virtualFiles
             else insertS st.virtualFiles p [] with hvf0
  set st1 : FS := { st with virtualFiles := insertS vf0 p C } with hst1
  have hv1 : lookupS st1.virtualFiles p = some C := by
    rw [hst1]
    simpa using (lookupS_insertS vf0 p C p).trans (if_pos rfl)
  have hspec := executeQuery_spec st1 p C hv1
  obtain ⟨htr, hres, hvf⟩ := hspec
  by_cases hsemi : endsWithSemi (pyStrip C) = true
  · have hw : writeModel st p data off = (.ok (utf8Len data), executeQuery st1 p) := by
      unfold writeModel
      rw [if_pos hk]
      simp only [← hvf0, ← hC, ← hst1, hsemi, if_true]
    rw [hw]
    refine ⟨?_, ?_, ?_, ?_, ?_⟩
    · rw [show (executeQuery st1 p).1.virtualFiles = st1.virtualFiles from hvf]
      exact hv1
    · intro h
      rw [h] at hsemi
      cases hsemi
    · intro _
      exact htr
    · intro _ qs lastq hlast
      show lookupS (executeQuery st1 p).1.queryResults (stemOf p) = _
      rw [hres, hlast, List.getLast?_concat]
      have hqr : st1.queryResults = st.queryResults := rfl
      rw [hqr, lookupS_insertS, if_pos rfl]
      rfl
    · intro _ hnil
      show (executeQuery st1 p).1.queryResults = st.queryResults
      rw [hres, hnil]
      rfl
  · have hsemi' : endsWithSemi (pyStrip C) = false := by
      simpa using hsemi
    have hw : writeModel st p data off = (.ok (utf8Len data), st1, []) := by
      unfold writeModel
      rw [if_pos hk]
      simp only [← hvf0, ← hC, ← hst1, hsemi']
      simp
    rw [hw]
    refine ⟨hv1, fun _ => ⟨rfl, rfl⟩, ?_, ?_, ?_⟩
    · intro h
      rw [h] at hsemi'
      cases hsemi'
    · intro h
      rw [h] at hsemi'
      cases hsemi'
    · intro h
      rw [h] at hsemi'
      cases hsemi'

/-- Claim C3, witnessed: writing `SELECT 1;` at offset 0 to a fresh query
file stores the text, executes exactly that fragment, and stores its
result under the stem. -/
theorem c3_query_write_exec_witness :
    lookupS (writeModel fsSelect (cl "/sql/queries/q1.sql")
        (cl "SELECT 1;") 0).2.1.queryResults (cl "q1") =
      some (csvQuery fsSelect (cl "SELECT 1")) :=
  (c3_query_write_exec fsSelect (cl "/sql/queries/q1.sql") (cl "SELECT 1;") 0
      (by decide)).2.2.2.1 (by decide) [] (cl "SELECT 1") (by decide)

/-! ## Claim C2: getattr size versus read content -/

/-- Claim C2 counterexample: for the existing csv_file `/data/t.csv`,
`getattr` reports 12 bytes — the length of `df.to_csv()` *with* the pandas
range index (`,name\n0,Ada\n`) — while `read` from offset 0 returns the
9-byte index-free serialization `name\nAda\n`; the claimed equality fails. -/
theorem c2_size_cex :
    getattrModel fsOneTable (cl "/data/t.csv") = .ok ⟨false, 12⟩ ∧
    utf8Len (readContent fsOneTable (cl "/data/t.csv")).1 = 9 ∧
    (12 : Nat) ≠ 9 := by decide

/-- Claim C2 amended: for every existing data-bearing file of kind
query_file, result_file or paginated_csv_file, the `st_size` returned by
`getattr` equals the byte length of the UTF-8 canonical form `read`
returns from offset 0; for a csv_file, `getattr` instead reports the byte
length of the serialization *with* the pandas row-index column
(`df.to_csv()`), while `read` returns the index-free form
(`df.to_csv(index=False)`). The stats-file prospective size and the
`ENOENT` on an absent query file are as the claim already excepts. -/
theorem c2_size_amended (st : FS) (p : Str) :
    (getFileType p = .query_file → ∀ a, getattrModel st p = .ok a →
      a.size = utf8Len (readContent st p).1) ∧
    (getFileType p = .result_file → ∀ a, getattrModel st p = .ok a →
      a.size = utf8Len (readContent st p).1) ∧
    (getFileType p = .paginated_csv_file → ∀ a, getattrModel st p = .ok a →
      a.size = utf8Len (readContent st p).1) ∧
    (getFileType p = .csv_file → ∀ a, getattrModel st p = .ok a →
      ∃ df, csvQuery st (selectAll (stemOf p)) = some df ∧
        a.size = utf8Len (dfToCsvIndexed df) ∧
        (readContent st p).1 = dfToCsv df) := by
  refine ⟨?_, ?_, ?_, ?_⟩
  · intro hk a ha
    simp only [getattrModel, hk] at ha
    cases hvf : lookupS st.virtualFiles p with
    | none => rw [hvf] at ha; simp at ha
    | some c =>
      rw [hvf] at ha
      simp at ha
      subst ha
      simp [readContent, hk, hvf]
  · intro hk a ha
    simp only [getattrModel, hk] at ha
    cases hq : lookupS st.queryResults (stemOf p) with
    | none => rw [hq] at ha; simp at ha
    | some o =>
      cases o with
      | none => rw [hq] at ha; simp at ha
      | some df =>
        rw [hq] at ha
        simp at ha
        subst ha
        simp [readContent, hk, resultFileContent, hq]
  · intro hk a ha
    simp only [getattrModel, hk] at ha
    cases hpag : parsePagination p with
    | none => rw [hpag] at ha; simp at ha
    | some tab =>
      obtain ⟨t, b1, b2⟩ := tab
      rw [hpag] at ha
      cases hq : csvQuery st (selectPage t ((b2 : Int) - (b1 : Int) + 1) b1) with
      | none =>
        simp [hq] at ha
      | some df =>
        by_cases hlen : df.rows.length > 0
        · simp [hq, hlen] at ha
          subst ha
          simp [readContent, hk, hpag, hq]
        · simp [hq, hlen] at ha
  · intro hk a ha
    simp only [getattrModel, hk] at ha
    cases hq : csvQuery st (selectAll (stemOf p)) with
    | none => rw [hq] at ha; simp at ha
    | some df =>
      rw [hq] at ha
      simp at ha
      subst ha
      exact ⟨df, rfl, by simp, by simp [readContent, hk, hq]⟩

/-- Claim C2 amended, witnessed on the query file `/sql/queries/q.sql`:
the 9-byte stored text is both the reported size and the read content. -/
theorem c2_size_witness :
    (Attr.mk false 9).size = utf8Len (readContent fsOneQuery (cl "/sql/queries/q.sql")).1 :=
  (c2_size_amended fsOneQuery (cl "/sql/queries/q.sql")).1 (by decide)
    ⟨false, 9⟩ (by decide)

theorem startsWithS_append (pre l : Str) : startsWithS pre (pre ++ l) = true := by
  induction pre with
  | nil => rfl
  | cons c t ih => simp [startsWithS, ih]

theorem getFileType_stats_shape (n : Str) :
    getFileType ('/' :: 's' :: 't' :: 'a' :: 't' :: 's' :: '/' ::
      (n ++ ('.' :: 'j' :: 's' :: 'o' :: 'n' :: []))) = .stats_file := by
  have hvd : virtualDirs = [['/'],
      ['/', 'd', 'a', 't', 'a'],
      ['/', 's', 'q', 'l'],
      ['/', 's', 'q', 'l', '/', 'q', 'u', 'e', 'r', 'i', 'e', 's'],
      ['/', 's', 'q', 'l', '/', 'r', 'e', 's', 'u', 'l', 't', 's'],
      ['/', 's', 't', 'a', 't', 's'],
      ['/', 's', 'c', 'h', 'e', 'm', 'a', 's']] := rfl
  have hsd : ('s' : Char) ≠ 'd' := by decide
  have htq : ('t' : Char) ≠ 'q' := by decide
  have htc : ('t' : Char) ≠ 'c' := by decide
  have hmem : ('/' :: 's' :: 't' :: 'a' :: 't' :: 's' :: '/' ::
      (n ++ ('.' :: 'j' :: 's' :: 'o' :: 'n' :: []))) ∉ virtualDirs := by
    intro h
    rw [hvd] at h
    simp only [List.mem_cons, List.not_mem_nil, or_false] at h
    rcases h with h | h | h | h | h | h | h <;> simp [hsd, htq, htc] at h
  have hsw : startsWithS (cl "/stats/") ('/' :: 's' :: 't' :: 'a' :: 't' :: 's' :: '/' ::
      (n ++ ('.' :: 'j' :: 's' :: 'o' :: 'n' :: []))) = true :=
    startsWithS_append (cl "/stats/") (n ++ ('.' :: 'j' :: 's' :: 'o' :: 'n' :: []))
  have hew : endsWithS (cl ".json") ('/' :: 's' :: 't' :: 'a' :: 't' :: 's' :: '/' ::
      (n ++ ('.' :: 'j' :: 's' :: 'o' :: 'n' :: []))) = true := by
    unfold endsWithS
    have hrev : ('/' :: 's' :: 't' :: 'a' :: 't' :: 's' :: '/' ::
        (n ++ ('.' :: 'j' :: 's' :: 'o' :: 'n' :: []))).reverse =
        (cl ".json").reverse ++ (n.reverse ++ (cl "/stats/").reverse) := by
      show ((cl "/stats/" ++ (n ++ cl ".json"))).reverse = _
      simp [List.reverse_append]
    rw [hrev]
    exact startsWithS_append (cl ".json").reverse (n.reverse ++ (cl "/stats/").reverse)
  unfold getFileType
  rw [if_neg hmem, if_pos (by rw [hsw, hew]; rfl)]

/-! ## Claim C9: stats-file getattr always succeeds -/

/-- Claim C9: for every name `N`, `/stats/<N>.json` classifies as a
stats file and `getattr` on it succeeds — never `ENOENT`, whether or not a
mirror table named `N` exists: before first materialization it reports the
fixed prospective size `4096 * 4096`, and after materialization the byte
length of the cached JSON document. -/
theorem c9_stats_getattr (n : Str) (st : FS) :
    getFileType (cl "/stats/" ++ n ++ cl ".json") = .stats_file ∧
    (lookupS st.stats (stemOf (cl "/stats/" ++ n ++ cl ".json")) = none →
      getattrModel st (cl "/stats/" ++ n ++ cl ".json") =
        .ok ⟨false, 4096 * 4096⟩) ∧
    (∀ doc, lookupS st.stats (stemOf (cl "/stats/" ++ n ++ cl ".json")) = some doc →
      getattrModel st (cl "/stats/" ++ n ++ cl ".json") =
        .ok ⟨false, utf8Len (jsonDumps doc)⟩) := by
  have hk : getFileType (cl "/stats/" ++ n ++ cl ".json") = .stats_file :=
    getFileType_stats_shape n
  refine ⟨hk, ?_, ?_⟩
  · intro habs
    simp only [getattrModel, hk]
    rw [habs]
    rfl
  · intro doc hdoc
    simp only [getattrModel, hk]
    rw [hdoc]
    rfl

/-- Claim C9, witnessed on the empty mount state and the name `t`: the
prospective size is reported. -/
theorem c9_stats_getattr_witness :
    getattrModel fsEmpty (cl "/stats/t.json") = .ok ⟨false, 4096 * 4096⟩ :=
  (c9_stats_getattr (cl "t") fsEmpty).2.1 rfl
